import Mathlib

/-!
Shallow embedding of the change-data-capture projector implemented in
src/python_unit_defect_fun/lambda_handler.py.

Records and stored items are flat string-to-string attribute maps, modelled
as association lists with first-occurrence lookup (Python dict semantics:
assignment replaces the value at an existing key in place and appends new
keys).  The destination DynamoDB table is a list of entries keyed by the
composite (PK, SK) identity.  DynamoDB guarantees that every stored item
carries its own key attributes, so the conditional expressions used by the
handler (attribute_not_exists on PK for put_item, Key PK/SK equality for
update_item) are modelled as existence tests on the item at the addressed
key.  Transient store failures on writes are modelled by a list of faulty
keys carried next to the table contents; a write addressed to a faulty key
raises a non-conditional client error, which the handler re-raises.
-/

/-- Flat attribute mapping: association list, first occurrence wins on lookup. -/
abbrev AttrMap := List (String × String)

/-- Dictionary lookup: value at the first occurrence of the key, if any. -/
def lookupA : AttrMap → String → Option String
  | [], _ => none
  | p :: rest, k => if p.1 == k then some p.2 else lookupA rest k

/-- Dictionary assignment: replace the value at the first occurrence of the
key, or append the pair if the key is absent. -/
def setA : AttrMap → String → String → AttrMap
  | [], k, v => [(k, v)]
  | p :: rest, k, v => if p.1 == k then (k, v) :: rest else p :: setA rest k v

/-- Python dict merge as in a double-splat literal: apply every pair of the
second map as an assignment onto the first. -/
def mergeA (m adds : AttrMap) : AttrMap :=
  adds.foldl (fun acc p => setA acc p.1 p.2) m

/-- Python truthiness of an optional string attribute value: a value is
truthy when it is present and non-empty. -/
def truthy : Option String → Bool
  | none => false
  | some s => s != ""

/-- Destination table contents: items keyed by the composite (PK, SK) pair. -/
abbrev DB := List ((String × String) × AttrMap)

/-- Point read by exact composite identity. -/
def getItem : DB → String → String → Option AttrMap
  | [], _, _ => none
  | e :: rest, pk, sk =>
    if e.1.1 == pk && e.1.2 == sk then some e.2 else getItem rest pk sk

/-- Store an item at a composite identity, replacing any existing item there. -/
def putAt : DB → String → String → AttrMap → DB
  | [], pk, sk, item => [((pk, sk), item)]
  | e :: rest, pk, sk, item =>
    if e.1.1 == pk && e.1.2 == sk then ((pk, sk), item) :: rest
    else e :: putAt rest pk sk item

/-- Destination table handle: contents plus the composite keys on which any
write raises a transient (non-conditional) client error. -/
structure Table where
  db : DB
  badKeys : List (String × String)
deriving Repr, DecidableEq

/-- Whether a write addressed to (pk, sk) raises a transient client error. -/
def keyFaulty (t : Table) (pk sk : String) : Bool :=
  t.badKeys.any (fun b => b.1 == pk && b.2 == sk)

/-- Outcome of a conditioned DynamoDB write. -/
inductive WriteResult where
  | ok (db : DB)
  | condFailed
  | clientError (msg : String)
deriving Repr, DecidableEq

/-- dest_table.put_item with ConditionExpression Attr PK .not_exists, as in
process_insert (line 157).  The key is the PK/SK carried by the item itself;
the condition fails exactly when an item already sits at that key. -/
def put_item_cond (t : Table) (item : AttrMap) : WriteResult :=
  let pk := (lookupA item "PK").getD ""
  let sk := (lookupA item "SK").getD ""
  if keyFaulty t pk sk then .clientError "transient store error"
  else
    match getItem t.db pk sk with
    | some _ => .condFailed
    | none => .ok (putAt t.db pk sk item)

/-- dest_table.update_item with a SET expression and a condition that the
addressed identity still matches (lines 196-202 and 228-233).  The condition
fails exactly when no item sits at the key; otherwise the assignments are
applied in order on top of the stored item.  DynamoDB rejects SET targeting
the key attributes themselves, so this model is used only for assignment
sets that do not contain PK or SK. -/
def update_item_cond (t : Table) (pk sk : String) (assigns : AttrMap) : WriteResult :=
  if keyFaulty t pk sk then .clientError "transient store error"
  else
    match getItem t.db pk sk with
    | none => .condFailed
    | some old => .ok (putAt t.db pk sk (mergeA old assigns))

/-- Outcome of the raw table.get_item call inside find_matching_record:
either a successful response carrying the optional item, or a ClientError. -/
inductive LookupOutcome where
  | ok (item : Option AttrMap)
  | clientError (msg : String)
deriving Repr, DecidableEq

/-- find_matching_record (lines 85-101): return the response's Item on
success; on ClientError, log and return None. -/
def find_matching_record : LookupOutcome → Option AttrMap
  | .ok item => item
  | .clientError _ => none

/-- build_pk_sk (lines 104-129): derive the destination composite identity
for one parent key type. -/
def build_pk_sk (record : AttrMap) (key_type : String) : Option (String × String) :=
  let unit_id := lookupA record "unitId"
  if truthy unit_id then
    if key_type == "customer" then
      let customer_id := lookupA record "customerId"
      if truthy customer_id then
        some ((customer_id.getD "") ++ "|" ++ (unit_id.getD ""), "customerUnit")
      else none
    else if key_type == "location" then
      let location_id := lookupA record "locationId"
      if truthy location_id then
        some ((location_id.getD "") ++ "|" ++ (unit_id.getD ""), "locationUnit")
      else none
    else if key_type == "account" then
      let account_id := lookupA record "accountId"
      if truthy account_id then
        some ((account_id.getD "") ++ "|" ++ (unit_id.getD ""), "accountUnit")
      else none
    else none
  else none

/-- The parent id extracted in process_insert (line 144):
pk_sk over PK, split on the bar separator, first segment — i.e. the longest
prefix of the composite key before the first bar character. -/
def parent_id_of (pk : String) : String :=
  (pk.toList.takeWhile (fun ch => ch != '|')).asString

/-- The fixed parent-type priority order iterated by all three protocols. -/
def keyTypes : List String := ["customer", "location", "account"]

/-- Loop body of process_insert (lines 132-166) over the remaining key
types.  On a conditional-check failure the loop continues with the next key
type; a non-conditional client error is re-raised. -/
def process_insert_go (t : Table) (record : AttrMap) (timestamp : String) :
    List String → Except String Table
  | [] => .ok t
  | key_type :: rest =>
    match build_pk_sk record key_type with
    | none => process_insert_go t record timestamp rest
    | some pksk =>
      let parent_id := parent_id_of pksk.1
      let parent_match := find_matching_record (.ok (getItem t.db parent_id key_type))
      if parent_match.isSome || key_type == "account" then
        let item := setA (mergeA [("PK", pksk.1), ("SK", pksk.2)] record) "createdAt" timestamp
        match put_item_cond t item with
        | .ok db2 => .ok ⟨db2, t.badKeys⟩
        | .condFailed => process_insert_go t record timestamp rest
        | .clientError msg => .error msg
      else process_insert_go t record timestamp rest

/-- process_insert (lines 132-166). -/
def process_insert (t : Table) (record : AttrMap) (timestamp : String) :
    Except String Table :=
  process_insert_go t record timestamp keyTypes

/-- Loop body of process_update (lines 169-212): gate on the projection
record itself existing, then SET every incoming attribute plus updatedAt. -/
def process_update_go (t : Table) (record : AttrMap) (timestamp : String) :
    List String → Except String Table
  | [] => .ok t
  | key_type :: rest =>
    match build_pk_sk record key_type with
    | none => process_update_go t record timestamp rest
    | some pksk =>
      match find_matching_record (.ok (getItem t.db pksk.1 pksk.2)) with
      | none => process_update_go t record timestamp rest
      | some _ =>
        match update_item_cond t pksk.1 pksk.2 (record ++ [("updatedAt", timestamp)]) with
        | .ok db2 => .ok ⟨db2, t.badKeys⟩
        | .condFailed => process_update_go t record timestamp rest
        | .clientError msg => .error msg

/-- process_update (lines 169-212). -/
def process_update (t : Table) (record : AttrMap) (timestamp : String) :
    Except String Table :=
  process_update_go t record timestamp keyTypes

/-- Loop body of process_delete (lines 215-246): gate on the projection
record itself existing, then SET only deletedAt. -/
def process_delete_go (t : Table) (record : AttrMap) (timestamp : String) :
    List String → Except String Table
  | [] => .ok t
  | key_type :: rest =>
    match build_pk_sk record key_type with
    | none => process_delete_go t record timestamp rest
    | some pksk =>
      match find_matching_record (.ok (getItem t.db pksk.1 pksk.2)) with
      | none => process_delete_go t record timestamp rest
      | some _ =>
        match update_item_cond t pksk.1 pksk.2 [("deletedAt", timestamp)] with
        | .ok db2 => .ok ⟨db2, t.badKeys⟩
        | .condFailed => process_delete_go t record timestamp rest
        | .clientError msg => .error msg

/-- process_delete (lines 215-246). -/
def process_delete (t : Table) (record : AttrMap) (timestamp : String) :
    Except String Table :=
  process_delete_go t record timestamp keyTypes

/-- One decoded change-log stream record: event id, event kind, and the
typed-value images (attribute name, type tag, value). -/
structure StreamRecord where
  eventID : Option String
  eventName : Option String
  newImage : List (String × String × String)
  oldImage : List (String × String × String)
deriving Repr, DecidableEq

/-- Image decoding in lambda_handler (lines 269-274): unwrap each
attribute's single type-tag/value pair to the bare scalar. -/
def decodeImage (img : List (String × String × String)) : AttrMap :=
  img.map (fun e => (e.1, e.2.2))

/-- Dispatch of one stream record by event name (lines 276-284), mirroring
the if/elif chain of the handler.  An unknown event name is logged and
skipped. -/
def processRecord (t : Table) (timestamp : String) (r : StreamRecord) :
    Except String Table :=
  let new_record := decodeImage r.newImage
  let old_record := decodeImage r.oldImage
  let event_name := r.eventName
  if event_name == some "INSERT" then process_insert t new_record timestamp
  else if event_name == some "MODIFY" then process_update t new_record timestamp
  else if event_name == some "REMOVE" then process_delete t old_record timestamp
  else .ok t

/-- The per-record loop of lambda_handler (lines 266-288): each record is
processed inside its own try block; an exception is logged against the
record's event id (default "unknown") and the loop continues with the table
state unchanged by the failed record. -/
def runRecords (t : Table) (timestamp : String) :
    List StreamRecord → Table × List (String × String)
  | [] => (t, [])
  | r :: rest =>
    match processRecord t timestamp r with
    | .ok t2 => runRecords t2 timestamp rest
    | .error e =>
      let tail := runRecords t timestamp rest
      (tail.1, (r.eventID.getD "unknown", e) :: tail.2)

/-- The invocation response shape. -/
structure LambdaResponse where
  statusCode : Nat
  body : String
deriving Repr, DecidableEq

/-- lambda_handler (lines 249-295).  The configuration fetch outcome (the
destination table name, or the message of the exception it raised) is
passed in, as is the single timestamp taken before the loop.  A
configuration failure short-circuits to the 500 response; otherwise every
record is processed and the 200 response is returned regardless of
per-record failures, which are modelled as the list of logged
(event id, message) pairs. -/
def lambda_handler (cfg : Except String String) (timestamp : String)
    (t : Table) (records : List StreamRecord) :
    LambdaResponse × Table × List (String × String) :=
  match cfg with
  | .error e => (⟨500, "Error: " ++ e⟩, t, [])
  | .ok _ =>
    let res := runRecords t timestamp records
    (⟨200, "Success"⟩, res.1, res.2)

/-- From the spec's priority rule (refinement side of the
priority-determinism claim): the sort key the spec promises — customerUnit
if customerId is present, else locationUnit if locationId is present, else
accountUnit. -/
def specWinnerSortKey (record : AttrMap) : String :=
  if truthy (lookupA record "customerId") then "customerUnit"
  else if truthy (lookupA record "locationId") then "locationUnit"
  else "accountUnit"

/-- From the spec's priority rule (refinement side of the
priority-determinism claim): the parent id belonging to the winning parent
type. -/
def specWinnerParentId (record : AttrMap) : String :=
  if truthy (lookupA record "customerId") then (lookupA record "customerId").getD ""
  else if truthy (lookupA record "locationId") then (lookupA record "locationId").getD ""
  else (lookupA record "accountId").getD ""

/-- The value of attribute f of the item stored at (pk, sk), reading a
missing item as the empty attribute map. -/
def tsAttr (db : DB) (pk sk f : String) : Option String :=
  lookupA ((getItem db pk sk).getD []) f

/-- Stored customer parent entity used by the redelivery scenario. -/
def c1ParentItem : AttrMap := [("PK", "c1"), ("SK", "customer")]

/-- Destination store holding only the customer parent c1. -/
def c1Store : Table := ⟨[(("c1", "customer"), c1ParentItem)], []⟩

/-- A Created-event payload carrying a customerId with an existing parent
and an accountId, as in at-least-once redelivery of one source insert. -/
def c1Event : AttrMap := [("unitId", "u1"), ("customerId", "c1"), ("accountId", "a1")]

/-- Store contents after the first application of c1Event at time T1. -/
def c1AfterFirst : Table :=
  ⟨[(("c1", "customer"), c1ParentItem),
    (("c1|u1", "customerUnit"),
     [("PK", "c1|u1"), ("SK", "customerUnit"), ("unitId", "u1"),
      ("customerId", "c1"), ("accountId", "a1"), ("createdAt", "T1")])], []⟩

/-- Store contents after redelivering c1Event at time T2: a second
projection record has appeared under the lower-priority account type. -/
def c1AfterSecond : Table :=
  ⟨[(("c1", "customer"), c1ParentItem),
    (("c1|u1", "customerUnit"),
     [("PK", "c1|u1"), ("SK", "customerUnit"), ("unitId", "u1"),
      ("customerId", "c1"), ("accountId", "a1"), ("createdAt", "T1")]),
    (("a1|u1", "accountUnit"),
     [("PK", "a1|u1"), ("SK", "accountUnit"), ("unitId", "u1"),
      ("customerId", "c1"), ("accountId", "a1"), ("createdAt", "T2")])], []⟩

/-- Store with parent entities for the customer x|y and the location l1. -/
def c2Store : Table :=
  ⟨[(("x|y", "customer"), [("PK", "x|y"), ("SK", "customer")]),
    (("l1", "location"), [("PK", "l1"), ("SK", "location")])], []⟩

/-- A Created-event payload whose customerId contains the bar separator. -/
def c2Event : AttrMap := [("unitId", "u1"), ("customerId", "x|y"), ("locationId", "l1")]

/-- Result of applying c2Event to c2Store: the projection lands under
locationUnit although customerId is present and its parent exists. -/
def c2After : Table :=
  ⟨[(("x|y", "customer"), [("PK", "x|y"), ("SK", "customer")]),
    (("l1", "location"), [("PK", "l1"), ("SK", "location")]),
    (("l1|u1", "locationUnit"),
     [("PK", "l1|u1"), ("SK", "locationUnit"), ("unitId", "u1"),
      ("customerId", "x|y"), ("locationId", "l1"), ("createdAt", "T1")])], []⟩

/-- Store holding a customer parent with id x, but no customer x|y. -/
def c4Store : Table := ⟨[(("x", "customer"), [("PK", "x"), ("SK", "customer")])], []⟩

/-- A Created-event payload naming the non-existent customer x|y. -/
def c4Event : AttrMap := [("unitId", "u1"), ("customerId", "x|y")]

/-- Result of applying c4Event to c4Store: a customerUnit projection is
created although no parent record exists at (x|y, customer). -/
def c4After : Table :=
  ⟨[(("x", "customer"), [("PK", "x"), ("SK", "customer")]),
    (("x|y|u1", "customerUnit"),
     [("PK", "x|y|u1"), ("SK", "customerUnit"), ("unitId", "u1"),
      ("customerId", "x|y"), ("createdAt", "T1")])], []⟩

/-- Store for the fault-isolation scenario: customer parent exists, and the
key the first record will write to raises a transient store error. -/
def c7Table : Table :=
  ⟨[(("c1", "customer"), [("PK", "c1"), ("SK", "customer")])],
   [("c1|u1", "customerUnit")]⟩

/-- Stream record whose processing raises a store error on write. -/
def c7Bad : StreamRecord :=
  ⟨some "evt-2", some "INSERT", [("unitId", "S", "u1"), ("customerId", "S", "c1")], []⟩

/-- Stream record that succeeds, creating an accountUnit projection. -/
def c7Good : StreamRecord :=
  ⟨some "evt-3", some "INSERT", [("unitId", "S", "u2"), ("accountId", "S", "a1")], []⟩

/-! ### Basic lemmas about the attribute-map and store operations -/

theorem truthy_iff (o : Option String) :
    truthy o = true ↔ ∃ s, o = some s ∧ s ≠ "" := by
  cases o with
  | none => simp [truthy]
  | some s => simp [truthy]

theorem lookupA_setA (m : AttrMap) (k v k2 : String) :
    lookupA (setA m k v) k2 = if k2 = k then some v else lookupA m k2 := by
  induction m with
  | nil =>
    by_cases h : k2 = k
    · subst h; simp [setA, lookupA]
    · simp [setA, lookupA, h, Ne.symm h]
  | cons p rest ih =>
    obtain ⟨a, b⟩ := p
    by_cases hp : a = k
    · subst hp
      by_cases h : k2 = a
      · subst h; simp [setA, lookupA]
      · simp [setA, lookupA, h, Ne.symm h]
    · by_cases hq : a = k2
      · subst hq
        have hk : ¬ a = k := hp
        simp [setA, lookupA, hk, Ne.symm hk]
      · simp [setA, lookupA, hp, hq, ih]

theorem lookupA_eq_none_iff (m : AttrMap) (k : String) :
    lookupA m k = none ↔ ∀ p ∈ m, p.1 ≠ k := by
  induction m with
  | nil => simp [lookupA]
  | cons p rest ih =>
    obtain ⟨a, b⟩ := p
    by_cases hp : a = k <;> simp [lookupA, hp, ih]

theorem lookupA_mergeA_of_absent (adds : AttrMap) (k : String)
    (h : lookupA adds k = none) :
    ∀ m, lookupA (mergeA m adds) k = lookupA m k := by
  induction adds with
  | nil => intro m; rfl
  | cons p rest ih =>
    obtain ⟨a, b⟩ := p
    intro m
    by_cases ha : a = k
    · simp [lookupA, ha] at h
    · have h2 : lookupA rest k = none := by simpa [lookupA, ha] using h
      have hstep : mergeA m ((a, b) :: rest) = mergeA (setA m a b) rest := rfl
      rw [hstep, ih h2, lookupA_setA]
      simp [Ne.symm ha]

theorem mergeA_append (m a b : AttrMap) :
    mergeA m (a ++ b) = mergeA (mergeA m a) b := by
  simp [mergeA, List.foldl_append]

theorem mergeA_single (m : AttrMap) (k v : String) :
    mergeA m [(k, v)] = setA m k v := rfl

theorem getItem_putAt (db : DB) (pk sk : String) (item : AttrMap)
    (pk2 sk2 : String) :
    getItem (putAt db pk sk item) pk2 sk2 =
      if pk2 = pk ∧ sk2 = sk then some item else getItem db pk2 sk2 := by
  induction db with
  | nil =>
    by_cases h1 : pk2 = pk ∧ sk2 = sk
    · obtain ⟨h1, h2⟩ := h1; subst h1; subst h2; simp [putAt, getItem]
    · have hb : ¬ (pk == pk2 && sk == sk2) = true := by
        simp only [Bool.and_eq_true, beq_iff_eq]
        intro hc; exact h1 ⟨hc.1.symm, hc.2.symm⟩
      simp [putAt, getItem, hb, h1]
  | cons e rest ih =>
    obtain ⟨⟨a, b⟩, v⟩ := e
    by_cases hab : a = pk ∧ b = sk
    · obtain ⟨ha, hb⟩ := hab; subst ha; subst hb
      have hput : putAt (((a, b), v) :: rest) a b item = ((a, b), item) :: rest := by
        simp [putAt]
      rw [hput]
      by_cases h1 : pk2 = a ∧ sk2 = b
      · obtain ⟨h1, h2⟩ := h1; subst h1; subst h2; simp [getItem]
      · have hc1 : ¬ (a == pk2 && b == sk2) = true := by
          simp only [Bool.and_eq_true, beq_iff_eq]
          intro hc; exact h1 ⟨hc.1.symm, hc.2.symm⟩
        simp [getItem, hc1, h1]
    · have hne : ¬ (a == pk && b == sk) = true := by
        simp only [Bool.and_eq_true, beq_iff_eq]; exact hab
      have hput : putAt (((a, b), v) :: rest) pk sk item =
          ((a, b), v) :: putAt rest pk sk item := by
        simp [putAt, hne]
      rw [hput]
      by_cases hq : a = pk2 ∧ b = sk2
      · obtain ⟨h1, h2⟩ := hq; subst h1; subst h2
        simp [getItem, hab]
      · have hq2 : ¬ (a == pk2 && b == sk2) = true := by
          simp only [Bool.and_eq_true, beq_iff_eq]; exact hq
        simp [getItem, hq2, ih]

theorem getItem_none_of_sk_not_mem (db : DB) (sk : String)
    (h : ∀ e ∈ db, e.1.2 ≠ sk) (pk : String) :
    getItem db pk sk = none := by
  induction db with
  | nil => rfl
  | cons e rest ih =>
    have he : e.1.2 ≠ sk := h e (List.mem_cons_self e rest)
    have hne : ¬ (e.1.1 == pk && e.1.2 == sk) = true := by
      simp only [Bool.and_eq_true, beq_iff_eq]
      intro hc; exact he hc.2
    simp only [getItem, hne, if_neg, if_false]
    exact ih (fun x hx => h x (List.mem_cons_of_mem e hx))

theorem takeWhile_append_stop (p : Char → Bool) (c : Char) (hc : p c = false) :
    ∀ (l1 l2 : List Char), (∀ a ∈ l1, p a = true) →
      (l1 ++ c :: l2).takeWhile p = l1 := by
  intro l1
  induction l1 with
  | nil => intro l2 _; simp [List.takeWhile, hc]
  | cons a rest ih =>
    intro l2 h
    have ha : p a = true := h a (List.mem_cons_self a rest)
    simp only [List.cons_append, List.takeWhile, ha]
    exact congrArg (List.cons a)
      (ih l2 (fun x hx => h x (List.mem_cons_of_mem a hx)))

theorem asString_data (s : String) : s.data.asString = s := rfl

theorem parent_id_of_concat (c u : String) (h : ∀ ch ∈ c.data, ch ≠ '|') :
    parent_id_of (c ++ "|" ++ u) = c := by
  have hlist : (c ++ "|" ++ u).data = c.data ++ '|' :: u.data := by
    simp [String.data_append]
  have hall : ∀ a ∈ c.data, (a != '|') = true := by
    intro a ha
    simpa using h a ha
  have := takeWhile_append_stop (fun ch => ch != '|') '|' (by simp) c.data u.data hall
  unfold parent_id_of
  rw [show (c ++ "|" ++ u).toList = (c ++ "|" ++ u).data from rfl, hlist, this,
    asString_data]

/-! ### Computation lemmas for build_pk_sk -/

theorem build_pk_sk_customer_some (rec : AttrMap) (u c : String)
    (hu : lookupA rec "unitId" = some u) (hu2 : u ≠ "")
    (hc : lookupA rec "customerId" = some c) (hc2 : c ≠ "") :
    build_pk_sk rec "customer" = some (c ++ "|" ++ u, "customerUnit") := by
  simp [build_pk_sk, hu, hc, truthy, hu2, hc2]

theorem build_pk_sk_location_some (rec : AttrMap) (u l : String)
    (hu : lookupA rec "unitId" = some u) (hu2 : u ≠ "")
    (hl : lookupA rec "locationId" = some l) (hl2 : l ≠ "") :
    build_pk_sk rec "location" = some (l ++ "|" ++ u, "locationUnit") := by
  simp [build_pk_sk, hu, hl, truthy, hu2, hl2]

theorem build_pk_sk_account_some (rec : AttrMap) (u a : String)
    (hu : lookupA rec "unitId" = some u) (hu2 : u ≠ "")
    (ha : lookupA rec "accountId" = some a) (ha2 : a ≠ "") :
    build_pk_sk rec "account" = some (a ++ "|" ++ u, "accountUnit") := by
  simp [build_pk_sk, hu, ha, truthy, hu2, ha2]

theorem build_pk_sk_customer_none (rec : AttrMap)
    (hc : truthy (lookupA rec "customerId") = false) :
    build_pk_sk rec "customer" = none := by
  simp [build_pk_sk, hc]

theorem build_pk_sk_location_none (rec : AttrMap)
    (hl : truthy (lookupA rec "locationId") = false) :
    build_pk_sk rec "location" = none := by
  simp [build_pk_sk, hl]

theorem build_pk_sk_account_none (rec : AttrMap)
    (ha : truthy (lookupA rec "accountId") = false) :
    build_pk_sk rec "account" = none := by
  simp [build_pk_sk, ha]

theorem build_pk_sk_sk_cases (rec : AttrMap) (kt : String) (pksk : String × String)
    (h : build_pk_sk rec kt = some pksk) :
    (kt = "customer" ∧ pksk.2 = "customerUnit") ∨
    (kt = "location" ∧ pksk.2 = "locationUnit") ∨
    (kt = "account" ∧ pksk.2 = "accountUnit") := by
  by_cases h1 : kt = "customer"
  · subst h1
    left
    refine ⟨rfl, ?_⟩
    by_cases hu : truthy (lookupA rec "unitId") <;>
      by_cases hc : truthy (lookupA rec "customerId") <;>
        simp [build_pk_sk, hu, hc] at h <;> simp [← h]
  · by_cases h2 : kt = "location"
    · subst h2
      right; left
      refine ⟨rfl, ?_⟩
      by_cases hu : truthy (lookupA rec "unitId") <;>
        by_cases hl : truthy (lookupA rec "locationId") <;>
          simp [build_pk_sk, hu, hl] at h <;> simp [← h]
    · by_cases h3 : kt = "account"
      · subst h3
        right; right
        refine ⟨rfl, ?_⟩
        by_cases hu : truthy (lookupA rec "unitId") <;>
          by_cases ha : truthy (lookupA rec "accountId") <;>
            simp [build_pk_sk, hu, ha] at h <;> simp [← h]
      · simp [build_pk_sk, h1, h2, h3] at h

/-! ### Shape lemmas for the three write protocols on a fault-free table -/

theorem keyFaulty_nil (db : DB) (pk sk : String) :
    keyFaulty ⟨db, []⟩ pk sk = false := rfl

theorem process_insert_go_shape (rec : AttrMap) (ts : String) :
    ∀ (kts : List String) (db : DB),
    ∃ db2, process_insert_go ⟨db, []⟩ rec ts kts = .ok ⟨db2, []⟩ ∧
      (db2 = db ∨
       ∃ kt pksk,
         kt ∈ kts ∧
         build_pk_sk rec kt = some pksk ∧
         ((getItem db (parent_id_of pksk.1) kt).isSome = true ∨ kt = "account") ∧
         ∃ item pkE skE,
           item = setA (mergeA [("PK", pksk.1), ("SK", pksk.2)] rec) "createdAt" ts ∧
           pkE = (lookupA item "PK").getD "" ∧
           skE = (lookupA item "SK").getD "" ∧
           getItem db pkE skE = none ∧
           db2 = putAt db pkE skE item) := by
  intro kts
  induction kts with
  | nil => intro db; exact ⟨db, rfl, Or.inl rfl⟩
  | cons kt rest ih =>
    intro db
    cases hb : build_pk_sk rec kt with
    | none =>
      obtain ⟨db2, he, hcase⟩ := ih db
      refine ⟨db2, ?_, ?_⟩
      · simp only [process_insert_go, hb, he]
      · rcases hcase with h | ⟨kt2, pksk, hmem, hrest⟩
        · exact Or.inl h
        · exact Or.inr ⟨kt2, pksk, List.mem_cons_of_mem kt hmem, hrest⟩
    | some pksk =>
      by_cases hg : ((getItem db (parent_id_of pksk.1) kt).isSome
          || (kt == "account")) = true
      · cases hput : getItem db
            ((lookupA (setA (mergeA [("PK", pksk.1), ("SK", pksk.2)] rec)
              "createdAt" ts) "PK").getD "")
            ((lookupA (setA (mergeA [("PK", pksk.1), ("SK", pksk.2)] rec)
              "createdAt" ts) "SK").getD "") with
        | some old =>
          obtain ⟨db2, he, hcase⟩ := ih db
          refine ⟨db2, ?_, ?_⟩
          · simp only [process_insert_go, hb, find_matching_record, hg, if_true,
              put_item_cond, keyFaulty_nil, Bool.false_eq_true, if_false, hput, he]
          · rcases hcase with h | ⟨kt2, pksk2, hmem, hrest⟩
            · exact Or.inl h
            · exact Or.inr ⟨kt2, pksk2, List.mem_cons_of_mem kt hmem, hrest⟩
        | none =>
          refine ⟨putAt db
              ((lookupA (setA (mergeA [("PK", pksk.1), ("SK", pksk.2)] rec)
                "createdAt" ts) "PK").getD "")
              ((lookupA (setA (mergeA [("PK", pksk.1), ("SK", pksk.2)] rec)
                "createdAt" ts) "SK").getD "")
              (setA (mergeA [("PK", pksk.1), ("SK", pksk.2)] rec) "createdAt" ts),
            ?_, ?_⟩
          · simp only [process_insert_go, hb, find_matching_record, hg, if_true,
              put_item_cond, keyFaulty_nil, Bool.false_eq_true, if_false, hput]
          · refine Or.inr ⟨kt, pksk, List.mem_cons_self kt rest, hb, ?_, _, _, _,
              rfl, rfl, rfl, hput, rfl⟩
            rcases Bool.or_eq_true_iff.mp hg with h | h
            · exact Or.inl h
            · exact Or.inr (by simpa using h)
      · obtain ⟨db2, he, hcase⟩ := ih db
        refine ⟨db2, ?_, ?_⟩
        · simp only [process_insert_go, hb, find_matching_record]
          rw [if_neg (by simpa using hg)]
          exact he
        · rcases hcase with h | ⟨kt2, pksk2, hmem, hrest⟩
          · exact Or.inl h
          · exact Or.inr ⟨kt2, pksk2, List.mem_cons_of_mem kt hmem, hrest⟩

theorem process_update_go_shape (rec : AttrMap) (ts : String) :
    ∀ (kts : List String) (db : DB),
    ∃ db2, process_update_go ⟨db, []⟩ rec ts kts = .ok ⟨db2, []⟩ ∧
      (db2 = db ∨
       ∃ pk sk old,
         getItem db pk sk = some old ∧
         db2 = putAt db pk sk (mergeA old (rec ++ [("updatedAt", ts)]))) := by
  intro kts
  induction kts with
  | nil => intro db; exact ⟨db, rfl, Or.inl rfl⟩
  | cons kt rest ih =>
    intro db
    cases hb : build_pk_sk rec kt with
    | none =>
      obtain ⟨db2, he, hcase⟩ := ih db
      exact ⟨db2, by simp only [process_update_go, hb, he], hcase⟩
    | some pksk =>
      cases hget : getItem db pksk.1 pksk.2 with
      | none =>
        obtain ⟨db2, he, hcase⟩ := ih db
        exact ⟨db2, by simp only [process_update_go, hb, find_matching_record,
          hget, he], hcase⟩
      | some old =>
        refine ⟨putAt db pksk.1 pksk.2 (mergeA old (rec ++ [("updatedAt", ts)])),
          ?_, Or.inr ⟨pksk.1, pksk.2, old, hget, rfl⟩⟩
        simp only [process_update_go, hb, find_matching_record, hget,
          update_item_cond, keyFaulty_nil, Bool.false_eq_true, if_false]

theorem process_delete_go_shape (rec : AttrMap) (ts : String) :
    ∀ (kts : List String) (db : DB),
    ∃ db2, process_delete_go ⟨db, []⟩ rec ts kts = .ok ⟨db2, []⟩ ∧
      (db2 = db ∨
       ∃ pk sk old,
         getItem db pk sk = some old ∧
         db2 = putAt db pk sk (mergeA old [("deletedAt", ts)])) := by
  intro kts
  induction kts with
  | nil => intro db; exact ⟨db, rfl, Or.inl rfl⟩
  | cons kt rest ih =>
    intro db
    cases hb : build_pk_sk rec kt with
    | none =>
      obtain ⟨db2, he, hcase⟩ := ih db
      exact ⟨db2, by simp only [process_delete_go, hb, he], hcase⟩
    | some pksk =>
      cases hget : getItem db pksk.1 pksk.2 with
      | none =>
        obtain ⟨db2, he, hcase⟩ := ih db
        exact ⟨db2, by simp only [process_delete_go, hb, find_matching_record,
          hget, he], hcase⟩
      | some old =>
        refine ⟨putAt db pksk.1 pksk.2 (mergeA old [("deletedAt", ts)]),
          ?_, Or.inr ⟨pksk.1, pksk.2, old, hget, rfl⟩⟩
        simp only [process_delete_go, hb, find_matching_record, hget,
          update_item_cond, keyFaulty_nil, Bool.false_eq_true, if_false]

/-! ### Lemmas about the batch dispatcher loop -/

theorem runRecords_append (t : Table) (ts : String)
    (xs ys : List StreamRecord) :
    runRecords t ts (xs ++ ys) =
      ((runRecords (runRecords t ts xs).1 ts ys).1,
       (runRecords t ts xs).2 ++ (runRecords (runRecords t ts xs).1 ts ys).2) := by
  induction xs generalizing t with
  | nil => simp [runRecords]
  | cons r rest ih =>
    cases hp : processRecord t ts r with
    | ok t2 => simp [runRecords, hp, ih]
    | error e => simp [runRecords, hp, ih]

/-! ### Control-flow lemmas for the create protocol loop -/

theorem item_key_lookups (rec : AttrMap) (pk sk ts : String)
    (hPK : lookupA rec "PK" = none) (hSK : lookupA rec "SK" = none) :
    lookupA (setA (mergeA [("PK", pk), ("SK", sk)] rec) "createdAt" ts) "PK" = some pk ∧
    lookupA (setA (mergeA [("PK", pk), ("SK", sk)] rec) "createdAt" ts) "SK" = some sk := by
  constructor
  · rw [lookupA_setA, if_neg (by decide),
      lookupA_mergeA_of_absent rec "PK" hPK]
    simp [lookupA]
  · rw [lookupA_setA, if_neg (by decide),
      lookupA_mergeA_of_absent rec "SK" hSK]
    simp [lookupA]

theorem process_insert_go_skip_nobuild (t : Table) (rec : AttrMap)
    (ts kt : String) (rest : List String)
    (hb : build_pk_sk rec kt = none) :
    process_insert_go t rec ts (kt :: rest) = process_insert_go t rec ts rest := by
  simp only [process_insert_go, hb]

theorem process_insert_go_skip_gate (t : Table) (rec : AttrMap)
    (ts kt : String) (rest : List String) (pksk : String × String)
    (hb : build_pk_sk rec kt = some pksk)
    (hgate : ((getItem t.db (parent_id_of pksk.1) kt).isSome
       || (kt == "account")) = false) :
    process_insert_go t rec ts (kt :: rest) = process_insert_go t rec ts rest := by
  simp only [process_insert_go, hb, find_matching_record, hgate,
    Bool.false_eq_true, if_false]

theorem process_insert_go_write (t : Table) (rec : AttrMap)
    (ts kt : String) (rest : List String) (pksk : String × String) (db2 : DB)
    (hb : build_pk_sk rec kt = some pksk)
    (hgate : ((getItem t.db (parent_id_of pksk.1) kt).isSome
       || (kt == "account")) = true)
    (hput : put_item_cond t
       (setA (mergeA [("PK", pksk.1), ("SK", pksk.2)] rec) "createdAt" ts) = .ok db2) :
    process_insert_go t rec ts (kt :: rest) = .ok ⟨db2, t.badKeys⟩ := by
  simp only [process_insert_go, hb, find_matching_record, hgate, if_true, hput]

theorem process_insert_go_skip_exists (t : Table) (rec : AttrMap)
    (ts kt : String) (rest : List String) (pksk : String × String)
    (hb : build_pk_sk rec kt = some pksk)
    (hgate : ((getItem t.db (parent_id_of pksk.1) kt).isSome
       || (kt == "account")) = true)
    (hput : put_item_cond t
       (setA (mergeA [("PK", pksk.1), ("SK", pksk.2)] rec) "createdAt" ts) = .condFailed) :
    process_insert_go t rec ts (kt :: rest) = process_insert_go t rec ts rest := by
  simp only [process_insert_go, hb, find_matching_record, hgate, if_true, hput]

/-! ### Claim theorems -/

/-- Claim C1: the spec promises that applying the same Created event twice
produces exactly one ProjectionRecord and that the second application is a
no-op.  The code violates this: after the conditional-check failure on the
customerUnit key the create loop continues instead of stopping, so the
redelivered event falls through to the account parent type and creates a
second projection record at (a1|u1, accountUnit).  The first record does
keep its original createdAt T1, but the second application is not a no-op. -/
theorem c1_insert_redelivery_creates_second_record :
    process_insert c1Store c1Event "T1" = .ok c1AfterFirst ∧
    process_insert c1AfterFirst c1Event "T2" = .ok c1AfterSecond ∧
    getItem c1AfterFirst.db "a1|u1" "accountUnit" = none ∧
    (getItem c1AfterSecond.db "a1|u1" "accountUnit").isSome = true ∧
    (getItem c1AfterSecond.db "c1|u1" "customerUnit").isSome = true ∧
    lookupA ((getItem c1AfterSecond.db "c1|u1" "customerUnit").getD [])
      "createdAt" = some "T1" ∧
    lookupA ((getItem c1AfterSecond.db "a1|u1" "accountUnit").getD [])
      "createdAt" = some "T2" ∧
    c1AfterSecond ≠ c1AfterFirst := by
  refine ⟨rfl, rfl, by decide, by decide, by decide, by decide,
    by decide, by decide⟩

/-- Claim C3: build_pk_sk returns absent exactly when unitId is
missing/empty or the attribute named with the parent type and the Id suffix
is missing/empty, and otherwise returns the pair with partition key built
from the parent id, the bar separator and the unit id, and sort key built
from the parent type and the Unit suffix.  The function is a pure Lean
function of the record alone. -/
theorem c3_build_pk_sk_characterization (rec : AttrMap) (kt : String)
    (hkt : kt = "customer" ∨ kt = "location" ∨ kt = "account") :
    (build_pk_sk rec kt = none ↔
       (truthy (lookupA rec "unitId") = false ∨
        truthy (lookupA rec (kt ++ "Id")) = false)) ∧
    (∀ u p, lookupA rec "unitId" = some u → u ≠ "" →
       lookupA rec (kt ++ "Id") = some p → p ≠ "" →
       build_pk_sk rec kt = some (p ++ "|" ++ u, kt ++ "Unit")) := by
  rcases hkt with h | h | h <;> subst h
  · rw [show ("customer" ++ "Id" : String) = "customerId" from rfl,
      show ("customer" ++ "Unit" : String) = "customerUnit" from rfl]
    constructor
    · cases hu : truthy (lookupA rec "unitId")
      · simp [build_pk_sk, hu]
      · cases hc : truthy (lookupA rec "customerId") <;> simp [build_pk_sk, hu, hc]
    · intro u p hu hu2 hp hp2
      exact build_pk_sk_customer_some rec u p hu hu2 hp hp2
  · rw [show ("location" ++ "Id" : String) = "locationId" from rfl,
      show ("location" ++ "Unit" : String) = "locationUnit" from rfl]
    constructor
    · cases hu : truthy (lookupA rec "unitId")
      · simp [build_pk_sk, hu]
      · cases hl : truthy (lookupA rec "locationId") <;> simp [build_pk_sk, hu, hl]
    · intro u p hu hu2 hp hp2
      exact build_pk_sk_location_some rec u p hu hu2 hp hp2
  · rw [show ("account" ++ "Id" : String) = "accountId" from rfl,
      show ("account" ++ "Unit" : String) = "accountUnit" from rfl]
    constructor
    · cases hu : truthy (lookupA rec "unitId")
      · simp [build_pk_sk, hu]
      · cases ha : truthy (lookupA rec "accountId") <;> simp [build_pk_sk, hu, ha]
    · intro u p hu hu2 hp hp2
      exact build_pk_sk_account_some rec u p hu hu2 hp hp2

/-- Witness for claim C3 at a concrete record and the customer parent
type. -/
theorem c3_build_pk_sk_characterization_witness :
    ("customer" = "customer" ∨ "customer" = "location" ∨
       "customer" = "account") ∧
    ((build_pk_sk [("unitId", "u1"), ("customerId", "c1")] "customer" = none ↔
       (truthy (lookupA [("unitId", "u1"), ("customerId", "c1")] "unitId") = false ∨
        truthy (lookupA [("unitId", "u1"), ("customerId", "c1")]
          ("customer" ++ "Id")) = false)) ∧
     (∀ u p,
        lookupA [("unitId", "u1"), ("customerId", "c1")] "unitId" = some u →
        u ≠ "" →
        lookupA [("unitId", "u1"), ("customerId", "c1")] ("customer" ++ "Id") = some p →
        p ≠ "" →
        build_pk_sk [("unitId", "u1"), ("customerId", "c1")] "customer" =
          some (p ++ "|" ++ u, "customer" ++ "Unit"))) :=
  ⟨Or.inl rfl,
   c3_build_pk_sk_characterization [("unitId", "u1"), ("customerId", "c1")]
     "customer" (Or.inl rfl)⟩

/-- Claim C8: the resolver returns absent both when the store lookup
succeeds with no item and when the lookup raises a client error; the two
outcomes are indistinguishable at its interface, and on a successful lookup
it returns exactly the store's item. -/
theorem c8_resolver_absorbs_lookup_errors :
    (∀ msg, find_matching_record (.clientError msg) = none) ∧
    find_matching_record (.ok none) = none ∧
    (∀ msg, find_matching_record (.clientError msg) =
       find_matching_record (.ok none)) ∧
    (∀ db pk sk, find_matching_record (.ok (getItem db pk sk)) = getItem db pk sk) :=
  ⟨fun _ => rfl, rfl, fun _ => rfl, fun _ _ _ => rfl⟩

/-- Claim C9: with a resolvable configuration the invocation returns
statusCode 200 and body Success for every batch, including batches whose
individual records fail; a configuration failure before the loop returns
statusCode 500 with the error message in the body. -/
theorem c9_batch_outcome_shape (ts : String) (t : Table)
    (records : List StreamRecord) :
    (∀ dest, (lambda_handler (.ok dest) ts t records).1 =
       ⟨200, "Success"⟩) ∧
    (∀ e, (lambda_handler (.error e) ts t records).1 =
       ⟨500, "Error: " ++ e⟩) :=
  ⟨fun _ => rfl, fun _ => rfl⟩

/-- Claim C5: a Modified event never creates a destination record — every
identity absent before processing is still absent after — and the only
possible change is at an identity whose projection record already existed,
which is overwritten by the stored item with every incoming attribute
applied plus updatedAt set to the batch timestamp, while createdAt keeps
its stored value.  The incoming payload is a business payload: it carries
no createdAt and no key attributes. -/
theorem c5_update_never_creates_and_preserves_createdAt
    (db : DB) (rec : AttrMap) (ts : String)
    (hcr : lookupA rec "createdAt" = none)
    (hPK : lookupA rec "PK" = none)
    (hSK : lookupA rec "SK" = none) :
    ∃ t2, process_update ⟨db, []⟩ rec ts = .ok t2 ∧
      (∀ pk sk, getItem db pk sk = none → getItem t2.db pk sk = none) ∧
      (∀ pk sk, getItem t2.db pk sk ≠ getItem db pk sk →
         ∃ old, getItem db pk sk = some old ∧
           getItem t2.db pk sk = some (mergeA old (rec ++ [("updatedAt", ts)])) ∧
           lookupA (mergeA old (rec ++ [("updatedAt", ts)])) "createdAt" =
             lookupA old "createdAt" ∧
           lookupA (mergeA old (rec ++ [("updatedAt", ts)])) "updatedAt" =
             some ts) := by
  obtain ⟨db2, he, hcase⟩ := process_update_go_shape rec ts keyTypes db
  refine ⟨⟨db2, []⟩, he, ?_, ?_⟩
  · intro pk sk hnone
    rcases hcase with h | ⟨pk0, sk0, old, hold, hput⟩
    · simpa [h] using hnone
    · subst hput
      rw [getItem_putAt]
      by_cases hk : pk = pk0 ∧ sk = sk0
      · exfalso
        obtain ⟨h1, h2⟩ := hk; subst h1; subst h2
        rw [hold] at hnone
        cases hnone
      · simp [hk, hnone]
  · intro pk sk hchanged
    rcases hcase with h | ⟨pk0, sk0, old, hold, hput⟩
    · exact absurd (by simp [h]) hchanged
    · subst hput
      rw [getItem_putAt] at hchanged ⊢
      by_cases hk : pk = pk0 ∧ sk = sk0
      · obtain ⟨h1, h2⟩ := hk; subst h1; subst h2
        refine ⟨old, hold, by simp, ?_, ?_⟩
        · rw [mergeA_append, mergeA_single, lookupA_setA,
            if_neg (by decide)]
          exact lookupA_mergeA_of_absent rec "createdAt" hcr old
        · rw [mergeA_append, mergeA_single, lookupA_setA]
          simp
      · rw [if_neg hk] at hchanged
        exact absurd rfl hchanged

/-- Witness for claim C5: a concrete store holding one projection record
which the Modified event mutates in place. -/
theorem c5_update_witness :
    (lookupA [("unitId", "u1"), ("customerId", "c1"), ("model", "m2")]
       "createdAt" = none) ∧
    ∃ t2, process_update
        ⟨[(("c1|u1", "customerUnit"),
           [("PK", "c1|u1"), ("SK", "customerUnit"), ("unitId", "u1"),
            ("customerId", "c1"), ("model", "m1"), ("createdAt", "T0")])], []⟩
        [("unitId", "u1"), ("customerId", "c1"), ("model", "m2")] "T5" = .ok t2 ∧
      (∀ pk sk,
        getItem [(("c1|u1", "customerUnit"),
           [("PK", "c1|u1"), ("SK", "customerUnit"), ("unitId", "u1"),
            ("customerId", "c1"), ("model", "m1"), ("createdAt", "T0")])] pk sk = none →
        getItem t2.db pk sk = none) ∧
      (∀ pk sk,
        getItem t2.db pk sk ≠
          getItem [(("c1|u1", "customerUnit"),
            [("PK", "c1|u1"), ("SK", "customerUnit"), ("unitId", "u1"),
             ("customerId", "c1"), ("model", "m1"), ("createdAt", "T0")])] pk sk →
        ∃ old,
          getItem [(("c1|u1", "customerUnit"),
            [("PK", "c1|u1"), ("SK", "customerUnit"), ("unitId", "u1"),
             ("customerId", "c1"), ("model", "m1"), ("createdAt", "T0")])] pk sk = some old ∧
          getItem t2.db pk sk =
            some (mergeA old ([("unitId", "u1"), ("customerId", "c1"), ("model", "m2")] ++
              [("updatedAt", "T5")])) ∧
          lookupA (mergeA old ([("unitId", "u1"), ("customerId", "c1"), ("model", "m2")] ++
              [("updatedAt", "T5")])) "createdAt" = lookupA old "createdAt" ∧
          lookupA (mergeA old ([("unitId", "u1"), ("customerId", "c1"), ("model", "m2")] ++
              [("updatedAt", "T5")])) "updatedAt" = some "T5") :=
  ⟨by decide,
   c5_update_never_creates_and_preserves_createdAt
     [(("c1|u1", "customerUnit"),
       [("PK", "c1|u1"), ("SK", "customerUnit"), ("unitId", "u1"),
        ("customerId", "c1"), ("model", "m1"), ("createdAt", "T0")])]
     [("unitId", "u1"), ("customerId", "c1"), ("model", "m2")] "T5"
     (by decide) (by decide) (by decide)⟩

/-- Claim C6: a Removed event never removes a stored record, and the only
change it can make is to overwrite an existing projection record with the
same record carrying deletedAt set to the batch timestamp; every attribute
other than deletedAt keeps its stored value. -/
theorem c6_soft_delete_frame (db : DB) (rec : AttrMap) (ts : String) :
    ∃ t2, process_delete ⟨db, []⟩ rec ts = .ok t2 ∧
      (∀ pk sk, (getItem db pk sk).isSome = true →
         (getItem t2.db pk sk).isSome = true) ∧
      (∀ pk sk,
        getItem t2.db pk sk = getItem db pk sk ∨
        ∃ old, getItem db pk sk = some old ∧
          getItem t2.db pk sk = some (mergeA old [("deletedAt", ts)]) ∧
          lookupA (mergeA old [("deletedAt", ts)]) "deletedAt" = some ts ∧
          (∀ f, f ≠ "deletedAt" →
            lookupA (mergeA old [("deletedAt", ts)]) f = lookupA old f)) := by
  obtain ⟨db2, he, hcase⟩ := process_delete_go_shape rec ts keyTypes db
  refine ⟨⟨db2, []⟩, he, ?_, ?_⟩
  · intro pk sk hsome
    rcases hcase with h | ⟨pk0, sk0, old, hold, hput⟩
    · simpa [h] using hsome
    · subst hput
      rw [getItem_putAt]
      by_cases hk : pk = pk0 ∧ sk = sk0
      · simp [hk]
      · simpa [hk] using hsome
  · intro pk sk
    rcases hcase with h | ⟨pk0, sk0, old, hold, hput⟩
    · exact Or.inl (by simp [h])
    · subst hput
      rw [getItem_putAt]
      by_cases hk : pk = pk0 ∧ sk = sk0
      · obtain ⟨h1, h2⟩ := hk; subst h1; subst h2
        refine Or.inr ⟨old, hold, by simp, ?_, ?_⟩
        · rw [mergeA_single, lookupA_setA]
          simp
        · intro f hf
          rw [mergeA_single, lookupA_setA, if_neg hf]
      · exact Or.inl (by simp [hk])

/-- Claim C7: an exception raised while processing one record of a batch is
caught by the dispatcher: the batch result on any batch that contains the
failing record equals the result of processing the surrounding records
alone, with the failing record contributing no store change and one logged
failure entry under its event id (or the unknown marker); every record
after the failing one is still processed from the same store state. -/
theorem c7_one_record_failure_never_aborts_batch
    (t : Table) (ts : String) (pre post : List StreamRecord)
    (bad : StreamRecord) (e : String)
    (h : processRecord (runRecords t ts pre).1 ts bad = .error e) :
    runRecords t ts (pre ++ bad :: post) =
      ((runRecords (runRecords t ts pre).1 ts post).1,
       (runRecords t ts pre).2 ++
         (bad.eventID.getD "unknown", e) ::
           (runRecords (runRecords t ts pre).1 ts post).2) := by
  rw [runRecords_append]
  simp [runRecords, h]

/-- Witness for claim C7: a concrete three-part batch where the middle
record hits a transient store error; the record after it is still applied
and the failure is logged under evt-2. -/
theorem c7_isolation_witness :
    processRecord (runRecords c7Table "T" []).1 "T" c7Bad =
      .error "transient store error" ∧
    runRecords c7Table "T" ([] ++ c7Bad :: [c7Good]) =
      ((runRecords (runRecords c7Table "T" []).1 "T" [c7Good]).1,
       (runRecords c7Table "T" []).2 ++
         (c7Bad.eventID.getD "unknown", "transient store error") ::
           (runRecords (runRecords c7Table "T" []).1 "T" [c7Good]).2) :=
  ⟨rfl,
   c7_one_record_failure_never_aborts_batch c7Table "T" [] [c7Good] c7Bad
     "transient store error" rfl⟩

/-! ### Timestamp-field evolution lemmas for claim C10 -/

theorem insert_ts_evolution (db : DB) (rec : AttrMap) (ts : String)
    (h1 : lookupA rec "updatedAt" = none)
    (h2 : lookupA rec "deletedAt" = none) :
    ∀ db2, process_insert ⟨db, []⟩ rec ts = .ok ⟨db2, []⟩ →
      ∀ pk sk f, (f = "createdAt" ∨ f = "updatedAt" ∨ f = "deletedAt") →
        tsAttr db2 pk sk f = tsAttr db pk sk f ∨ tsAttr db2 pk sk f = some ts := by
  intro db2 hrun pk sk f hf
  obtain ⟨db2b, he, hcase⟩ := process_insert_go_shape rec ts keyTypes db
  have hdb : db2b = db2 := by
    have h0 := he.symm.trans hrun
    simpa using h0
  subst hdb
  rcases hcase with hsame | ⟨kt, pksk, hmem, hb, hgate, item, pkE, skE,
    hitem, hpkE, hskE, hfreshE, hput⟩
  · rw [hsame]
    exact Or.inl rfl
  · have hval : tsAttr db2b pk sk f =
        if pk = pkE ∧ sk = skE then lookupA item f else tsAttr db pk sk f := by
      unfold tsAttr
      rw [hput, getItem_putAt]
      by_cases hk : pk = pkE ∧ sk = skE
      · simp [hk]
      · simp [hk]
    by_cases hk : pk = pkE ∧ sk = skE
    · rw [hval, if_pos hk]
      have hold : tsAttr db pk sk f = none := by
        obtain ⟨hk1, hk2⟩ := hk; subst hk1; subst hk2
        unfold tsAttr
        rw [hfreshE]
        rfl
      rcases hf with hf | hf | hf <;> subst hf
      · right
        rw [hitem, lookupA_setA, if_pos rfl]
      · left
        rw [hold, hitem, lookupA_setA, if_neg (by decide),
          lookupA_mergeA_of_absent rec "updatedAt" h1]
        simp [lookupA]
      · left
        rw [hold, hitem, lookupA_setA, if_neg (by decide),
          lookupA_mergeA_of_absent rec "deletedAt" h2]
        simp [lookupA]
    · rw [hval, if_neg hk]
      exact Or.inl rfl

theorem update_ts_evolution (db : DB) (rec : AttrMap) (ts : String)
    (h1 : lookupA rec "createdAt" = none)
    (h2 : lookupA rec "deletedAt" = none) :
    ∀ db2, process_update ⟨db, []⟩ rec ts = .ok ⟨db2, []⟩ →
      ∀ pk sk f, (f = "createdAt" ∨ f = "updatedAt" ∨ f = "deletedAt") →
        tsAttr db2 pk sk f = tsAttr db pk sk f ∨ tsAttr db2 pk sk f = some ts := by
  intro db2 hrun pk sk f hf
  obtain ⟨db2b, he, hcase⟩ := process_update_go_shape rec ts keyTypes db
  have hdb : db2b = db2 := by
    have h0 := he.symm.trans hrun
    simpa using h0
  subst hdb
  rcases hcase with hsame | ⟨pk0, sk0, old, hold, hput⟩
  · rw [hsame]
    exact Or.inl rfl
  · have hval : tsAttr db2b pk sk f =
        if pk = pk0 ∧ sk = sk0 then
          lookupA (mergeA old (rec ++ [("updatedAt", ts)])) f
        else tsAttr db pk sk f := by
      unfold tsAttr
      rw [hput, getItem_putAt]
      by_cases hk : pk = pk0 ∧ sk = sk0
      · simp [hk]
      · simp [hk]
    by_cases hk : pk = pk0 ∧ sk = sk0
    · rw [hval, if_pos hk]
      have holdv : tsAttr db pk sk f = lookupA old f := by
        obtain ⟨hk1, hk2⟩ := hk; subst hk1; subst hk2
        unfold tsAttr
        rw [hold]
        rfl
      rcases hf with hf | hf | hf <;> subst hf
      · left
        rw [holdv, mergeA_append, mergeA_single, lookupA_setA,
          if_neg (by decide), lookupA_mergeA_of_absent rec "createdAt" h1]
      · right
        rw [mergeA_append, mergeA_single, lookupA_setA, if_pos rfl]
      · left
        rw [holdv, mergeA_append, mergeA_single, lookupA_setA,
          if_neg (by decide), lookupA_mergeA_of_absent rec "deletedAt" h2]
    · rw [hval, if_neg hk]
      exact Or.inl rfl

theorem delete_ts_evolution (db : DB) (rec : AttrMap) (ts : String) :
    ∀ db2, process_delete ⟨db, []⟩ rec ts = .ok ⟨db2, []⟩ →
      ∀ pk sk f, (f = "createdAt" ∨ f = "updatedAt" ∨ f = "deletedAt") →
        tsAttr db2 pk sk f = tsAttr db pk sk f ∨ tsAttr db2 pk sk f = some ts := by
  intro db2 hrun pk sk f hf
  obtain ⟨db2b, he, hcase⟩ := process_delete_go_shape rec ts keyTypes db
  have hdb : db2b = db2 := by
    have h0 := he.symm.trans hrun
    simpa using h0
  subst hdb
  rcases hcase with hsame | ⟨pk0, sk0, old, hold, hput⟩
  · rw [hsame]
    exact Or.inl rfl
  · have hval : tsAttr db2b pk sk f =
        if pk = pk0 ∧ sk = sk0 then
          lookupA (mergeA old [("deletedAt", ts)]) f
        else tsAttr db pk sk f := by
      unfold tsAttr
      rw [hput, getItem_putAt]
      by_cases hk : pk = pk0 ∧ sk = sk0
      · simp [hk]
      · simp [hk]
    by_cases hk : pk = pk0 ∧ sk = sk0
    · rw [hval, if_pos hk]
      have holdv : tsAttr db pk sk f = lookupA old f := by
        obtain ⟨hk1, hk2⟩ := hk; subst hk1; subst hk2
        unfold tsAttr
        rw [hold]
        rfl
      rcases hf with hf | hf | hf <;> subst hf
      · left
        rw [holdv, mergeA_single, lookupA_setA, if_neg (by decide)]
      · left
        rw [holdv, mergeA_single, lookupA_setA, if_neg (by decide)]
      · right
        rw [mergeA_single, lookupA_setA, if_pos rfl]
    · rw [hval, if_neg hk]
      exact Or.inl rfl

theorem processRecord_ts_evolution (db : DB) (ts : String) (r : StreamRecord)
    (hn1 : lookupA (decodeImage r.newImage) "createdAt" = none)
    (hn2 : lookupA (decodeImage r.newImage) "updatedAt" = none)
    (hn3 : lookupA (decodeImage r.newImage) "deletedAt" = none) :
    ∃ db2, processRecord ⟨db, []⟩ ts r = .ok ⟨db2, []⟩ ∧
      ∀ pk sk f, (f = "createdAt" ∨ f = "updatedAt" ∨ f = "deletedAt") →
        tsAttr db2 pk sk f = tsAttr db pk sk f ∨ tsAttr db2 pk sk f = some ts := by
  by_cases hI : (r.eventName == some "INSERT") = true
  · obtain ⟨db2, he, _⟩ :=
      process_insert_go_shape (decodeImage r.newImage) ts keyTypes db
    refine ⟨db2, ?_, ?_⟩
    · simp only [processRecord, hI, if_true]
      exact he
    · exact insert_ts_evolution db (decodeImage r.newImage) ts hn2 hn3 db2 he
  · by_cases hM : (r.eventName == some "MODIFY") = true
    · obtain ⟨db2, he, _⟩ :=
        process_update_go_shape (decodeImage r.newImage) ts keyTypes db
      refine ⟨db2, ?_, ?_⟩
      · rw [Bool.not_eq_true] at hI
        simp only [processRecord, hI, hM, Bool.false_eq_true, if_false, if_true]
        exact he
      · exact update_ts_evolution db (decodeImage r.newImage) ts hn1 hn3 db2 he
    · by_cases hR : (r.eventName == some "REMOVE") = true
      · obtain ⟨db2, he, _⟩ :=
          process_delete_go_shape (decodeImage r.oldImage) ts keyTypes db
        refine ⟨db2, ?_, ?_⟩
        · rw [Bool.not_eq_true] at hI hM
          simp only [processRecord, hI, hM, hR, Bool.false_eq_true, if_false,
            if_true]
          exact he
        · exact delete_ts_evolution db (decodeImage r.oldImage) ts db2 he
      · refine ⟨db, ?_, fun pk sk f hf => Or.inl rfl⟩
        rw [Bool.not_eq_true] at hI hM hR
        simp only [processRecord, hI, hM, hR, Bool.false_eq_true, if_false]

theorem runRecords_ts_evolution (ts : String) :
    ∀ (records : List StreamRecord) (db : DB),
      (∀ r ∈ records,
        lookupA (decodeImage r.newImage) "createdAt" = none ∧
        lookupA (decodeImage r.newImage) "updatedAt" = none ∧
        lookupA (decodeImage r.newImage) "deletedAt" = none) →
      ∀ pk sk f, (f = "createdAt" ∨ f = "updatedAt" ∨ f = "deletedAt") →
        tsAttr (runRecords ⟨db, []⟩ ts records).1.db pk sk f = tsAttr db pk sk f ∨
        tsAttr (runRecords ⟨db, []⟩ ts records).1.db pk sk f = some ts := by
  intro records
  induction records with
  | nil => intro db _ pk sk f hf; exact Or.inl rfl
  | cons r rest ih =>
    intro db hclean pk sk f hf
    obtain ⟨hc1, hc2, hc3⟩ := hclean r (List.mem_cons_self r rest)
    obtain ⟨db1, hstep, hev⟩ := processRecord_ts_evolution db ts r hc1 hc2 hc3
    have hrw : runRecords ⟨db, []⟩ ts (r :: rest) = runRecords ⟨db1, []⟩ ts rest := by
      simp [runRecords, hstep]
    rw [hrw]
    rcases ih db1 (fun r2 hm => hclean r2 (List.mem_cons_of_mem r hm)) pk sk f hf
      with h | h
    · rw [h]
      exact hev pk sk f hf
    · exact Or.inr h

/-- Claim C10: one timestamp string is fixed per invocation and passed to
every protocol, so any createdAt, updatedAt or deletedAt value that the
batch changes in the destination store equals that single string; in
particular two records of the same batch never write distinct timestamps.
The incoming payloads are business payloads and do not themselves carry
lifecycle fields. -/
theorem c10_single_batch_timestamp (db : DB) (ts : String)
    (records : List StreamRecord)
    (hclean : ∀ r ∈ records,
      lookupA (decodeImage r.newImage) "createdAt" = none ∧
      lookupA (decodeImage r.newImage) "updatedAt" = none ∧
      lookupA (decodeImage r.newImage) "deletedAt" = none) :
    ∀ pk sk f, (f = "createdAt" ∨ f = "updatedAt" ∨ f = "deletedAt") →
      tsAttr (runRecords ⟨db, []⟩ ts records).1.db pk sk f ≠ tsAttr db pk sk f →
      tsAttr (runRecords ⟨db, []⟩ ts records).1.db pk sk f = some ts := by
  intro pk sk f hf hne
  rcases runRecords_ts_evolution ts records db hclean pk sk f hf with h | h
  · exact absurd h hne
  · exact h

/-- Witness for claim C10: a two-record batch (a create and a soft delete)
against a store holding one projection record; all lifecycle fields the
batch touches read back as T9. -/
theorem c10_single_batch_timestamp_witness :
    (∀ r ∈ [(⟨some "e1", some "INSERT",
        [("unitId", "S", "u2"), ("accountId", "S", "a1")], []⟩ : StreamRecord),
      ⟨some "e2", some "REMOVE", [],
        [("unitId", "S", "u1"), ("customerId", "S", "c1")]⟩],
      lookupA (decodeImage r.newImage) "createdAt" = none ∧
      lookupA (decodeImage r.newImage) "updatedAt" = none ∧
      lookupA (decodeImage r.newImage) "deletedAt" = none) ∧
    (∀ pk sk f, (f = "createdAt" ∨ f = "updatedAt" ∨ f = "deletedAt") →
      tsAttr (runRecords
        ⟨[(("c1|u1", "customerUnit"),
           [("PK", "c1|u1"), ("SK", "customerUnit"), ("unitId", "u1"),
            ("customerId", "c1"), ("createdAt", "T0")])], []⟩ "T9"
        [⟨some "e1", some "INSERT",
           [("unitId", "S", "u2"), ("accountId", "S", "a1")], []⟩,
         ⟨some "e2", some "REMOVE", [],
           [("unitId", "S", "u1"), ("customerId", "S", "c1")]⟩]).1.db pk sk f ≠
        tsAttr [(("c1|u1", "customerUnit"),
           [("PK", "c1|u1"), ("SK", "customerUnit"), ("unitId", "u1"),
            ("customerId", "c1"), ("createdAt", "T0")])] pk sk f →
      tsAttr (runRecords
        ⟨[(("c1|u1", "customerUnit"),
           [("PK", "c1|u1"), ("SK", "customerUnit"), ("unitId", "u1"),
            ("customerId", "c1"), ("createdAt", "T0")])], []⟩ "T9"
        [⟨some "e1", some "INSERT",
           [("unitId", "S", "u2"), ("accountId", "S", "a1")], []⟩,
         ⟨some "e2", some "REMOVE", [],
           [("unitId", "S", "u1"), ("customerId", "S", "c1")]⟩]).1.db pk sk f =
        some "T9") :=
  ⟨by decide,
   c10_single_batch_timestamp
     [(("c1|u1", "customerUnit"),
       [("PK", "c1|u1"), ("SK", "customerUnit"), ("unitId", "u1"),
        ("customerId", "c1"), ("createdAt", "T0")])] "T9"
     [⟨some "e1", some "INSERT",
        [("unitId", "S", "u2"), ("accountId", "S", "a1")], []⟩,
      ⟨some "e2", some "REMOVE", [],
        [("unitId", "S", "u1"), ("customerId", "S", "c1")]⟩]
     (by decide)⟩

/-! ### Create-protocol write-outcome lemmas -/

theorem put_item_cond_fresh (db : DB) (rec : AttrMap) (pk sk ts : String)
    (hPK : lookupA rec "PK" = none) (hSK : lookupA rec "SK" = none)
    (hfreshKey : getItem db pk sk = none) :
    put_item_cond ⟨db, []⟩
        (setA (mergeA [("PK", pk), ("SK", sk)] rec) "createdAt" ts) =
      .ok (putAt db pk sk
        (setA (mergeA [("PK", pk), ("SK", sk)] rec) "createdAt" ts)) := by
  obtain ⟨hpkE, hskE⟩ := item_key_lookups rec pk sk ts hPK hSK
  simp only [put_item_cond, hpkE, hskE, Option.getD_some, keyFaulty_nil,
    Bool.false_eq_true, if_false, hfreshKey]

theorem put_item_cond_taken (db : DB) (rec : AttrMap) (pk sk ts : String)
    (old : AttrMap)
    (hPK : lookupA rec "PK" = none) (hSK : lookupA rec "SK" = none)
    (hget : getItem db pk sk = some old) :
    put_item_cond ⟨db, []⟩
        (setA (mergeA [("PK", pk), ("SK", sk)] rec) "createdAt" ts) =
      .condFailed := by
  obtain ⟨hpkE, hskE⟩ := item_key_lookups rec pk sk ts hPK hSK
  simp only [put_item_cond, hpkE, hskE, Option.getD_some, keyFaulty_nil,
    Bool.false_eq_true, if_false, hget]

theorem insert_wins_head (db : DB) (rec : AttrMap) (ts kt : String)
    (rest : List String) (pk sk : String)
    (hb : build_pk_sk rec kt = some (pk, sk))
    (hgate : ((getItem db (parent_id_of pk) kt).isSome || (kt == "account")) = true)
    (hPK : lookupA rec "PK" = none) (hSK : lookupA rec "SK" = none)
    (hfreshKey : getItem db pk sk = none) :
    process_insert_go ⟨db, []⟩ rec ts (kt :: rest) =
      .ok ⟨putAt db pk sk
        (setA (mergeA [("PK", pk), ("SK", sk)] rec) "createdAt" ts), []⟩ :=
  process_insert_go_write ⟨db, []⟩ rec ts kt rest (pk, sk) _ hb hgate
    (put_item_cond_fresh db rec pk sk ts hPK hSK hfreshKey)

theorem build_pk_sk_some_unit_truthy (rec : AttrMap) (kt : String)
    (pksk : String × String) (hb : build_pk_sk rec kt = some pksk) :
    truthy (lookupA rec "unitId") = true := by
  cases htu : truthy (lookupA rec "unitId")
  · simp [build_pk_sk, htu] at hb
  · rfl

/-- Claim C2 as frozen is false on the code: with customerId x|y (a value
containing the bar separator) whose parent record exists at (x|y, customer)
and locationId l1 whose parent exists at (l1, location), the create loop
extracts the parent id x from the composite key x|y|u1, fails the customer
parent lookup, and writes the projection under locationUnit, not
customerUnit. -/
theorem c2_priority_claim_counterexample :
    truthy (lookupA c2Event "customerId") = true ∧
    truthy (lookupA c2Event "locationId") = true ∧
    truthy (lookupA c2Event "unitId") = true ∧
    (getItem c2Store.db "x|y" "customer").isSome = true ∧
    (getItem c2Store.db "l1" "location").isSome = true ∧
    process_insert c2Store c2Event "T1" = .ok c2After ∧
    getItem c2After.db "x|y|u1" "customerUnit" = none ∧
    (getItem c2After.db "l1|u1" "locationUnit").isSome = true := by
  refine ⟨by decide, by decide, by decide, by decide, by decide, rfl,
    by decide, by decide⟩

/-- Claim C2 amended: for every record with nonempty unitId, at least two of
customerId, locationId, accountId present, parents of the present customer
and location ids existing in the destination store, no projection record at
this record's winning identity yet, and — the amendment forced by the
counterexample — customer and location ids containing no bar separator, the
Created event writes exactly one projection record, at the spec's winning
identity: sortKey is customerUnit if customerId is present, else
locationUnit if locationId is present, else accountUnit; every other
identity is untouched. -/
theorem c2_priority_determinism_bar_free
    (db : DB) (rec : AttrMap) (ts u : String)
    (hu : lookupA rec "unitId" = some u) (hu2 : u ≠ "")
    (hPK : lookupA rec "PK" = none) (hSK : lookupA rec "SK" = none)
    (hcount : 2 ≤ (cond (truthy (lookupA rec "customerId")) 1 0) +
        (cond (truthy (lookupA rec "locationId")) 1 0) +
        (cond (truthy (lookupA rec "accountId")) 1 0))
    (hcbar : ∀ ch ∈ ((lookupA rec "customerId").getD "").data, ch ≠ '|')
    (hlbar : ∀ ch ∈ ((lookupA rec "locationId").getD "").data, ch ≠ '|')
    (hc : truthy (lookupA rec "customerId") = true →
       (getItem db ((lookupA rec "customerId").getD "") "customer").isSome = true)
    (hl : truthy (lookupA rec "locationId") = true →
       (getItem db ((lookupA rec "locationId").getD "") "location").isSome = true)
    (ha : truthy (lookupA rec "accountId") = true →
       (getItem db ((lookupA rec "accountId").getD "") "account").isSome = true)
    (hfresh : getItem db (specWinnerParentId rec ++ "|" ++ u)
       (specWinnerSortKey rec) = none) :
    ∃ t2, process_insert ⟨db, []⟩ rec ts = .ok t2 ∧
      getItem t2.db (specWinnerParentId rec ++ "|" ++ u) (specWinnerSortKey rec) =
        some (setA (mergeA [("PK", specWinnerParentId rec ++ "|" ++ u),
          ("SK", specWinnerSortKey rec)] rec) "createdAt" ts) ∧
      ∀ pk2 sk2, ¬ (pk2 = specWinnerParentId rec ++ "|" ++ u ∧
          sk2 = specWinnerSortKey rec) →
        getItem t2.db pk2 sk2 = getItem db pk2 sk2 := by
  by_cases hco : truthy (lookupA rec "customerId") = true
  · obtain ⟨c, hcEq, hcNe⟩ := (truthy_iff _).mp hco
    have hwSk : specWinnerSortKey rec = "customerUnit" := by
      simp [specWinnerSortKey, hco]
    have hwId : specWinnerParentId rec = c := by
      unfold specWinnerParentId
      rw [if_pos hco, hcEq]
      rfl
    have hb := build_pk_sk_customer_some rec u c hu hu2 hcEq hcNe
    have hpid : parent_id_of (c ++ "|" ++ u) = c :=
      parent_id_of_concat c u (by simpa [hcEq] using hcbar)
    have hcSome : (getItem db c "customer").isSome = true := by
      simpa [hcEq] using hc hco
    have hfreshKey : getItem db (c ++ "|" ++ u) "customerUnit" = none := by
      rw [hwId, hwSk] at hfresh
      exact hfresh
    have hgate : ((getItem db (parent_id_of (c ++ "|" ++ u)) "customer").isSome
        || ("customer" == "account")) = true := by
      rw [hpid, hcSome]
      rfl
    have hrun : process_insert ⟨db, []⟩ rec ts =
        .ok ⟨putAt db (c ++ "|" ++ u) "customerUnit"
          (setA (mergeA [("PK", c ++ "|" ++ u), ("SK", "customerUnit")] rec)
            "createdAt" ts), []⟩ :=
      insert_wins_head db rec ts "customer" ["location", "account"]
        (c ++ "|" ++ u) "customerUnit" hb hgate hPK hSK hfreshKey
    rw [hwSk, hwId]
    refine ⟨_, hrun, ?_, ?_⟩
    · dsimp only
      rw [getItem_putAt, if_pos ⟨rfl, rfl⟩]
    · intro pk2 sk2 hne
      dsimp only
      rw [getItem_putAt, if_neg hne]
  · rw [Bool.not_eq_true] at hco
    by_cases hlo : truthy (lookupA rec "locationId") = true
    · obtain ⟨l, hlEq, hlNe⟩ := (truthy_iff _).mp hlo
      have hwSk : specWinnerSortKey rec = "locationUnit" := by
        simp [specWinnerSortKey, hco, hlo]
      have hwId : specWinnerParentId rec = l := by
        unfold specWinnerParentId
        rw [if_neg (by simp [hco]), if_pos hlo, hlEq]
        rfl
      have hb := build_pk_sk_location_some rec u l hu hu2 hlEq hlNe
      have hpid : parent_id_of (l ++ "|" ++ u) = l :=
        parent_id_of_concat l u (by simpa [hlEq] using hlbar)
      have hlSome : (getItem db l "location").isSome = true := by
        simpa [hlEq] using hl hlo
      have hfreshKey : getItem db (l ++ "|" ++ u) "locationUnit" = none := by
        rw [hwId, hwSk] at hfresh
        exact hfresh
      have hgate : ((getItem db (parent_id_of (l ++ "|" ++ u)) "location").isSome
          || ("location" == "account")) = true := by
        rw [hpid, hlSome]
        rfl
      have hrun : process_insert ⟨db, []⟩ rec ts =
          .ok ⟨putAt db (l ++ "|" ++ u) "locationUnit"
            (setA (mergeA [("PK", l ++ "|" ++ u), ("SK", "locationUnit")] rec)
              "createdAt" ts), []⟩ := by
        have hskip := process_insert_go_skip_nobuild ⟨db, []⟩ rec ts "customer"
          ["location", "account"] (build_pk_sk_customer_none rec hco)
        calc process_insert ⟨db, []⟩ rec ts
            = process_insert_go ⟨db, []⟩ rec ts ["customer", "location", "account"] := rfl
          _ = process_insert_go ⟨db, []⟩ rec ts ["location", "account"] := hskip
          _ = _ := insert_wins_head db rec ts "location" ["account"]
              (l ++ "|" ++ u) "locationUnit" hb hgate hPK hSK hfreshKey
      rw [hwSk, hwId]
      refine ⟨_, hrun, ?_, ?_⟩
      · dsimp only
        rw [getItem_putAt, if_pos ⟨rfl, rfl⟩]
      · intro pk2 sk2 hne
        dsimp only
        rw [getItem_putAt, if_neg hne]
    · rw [Bool.not_eq_true] at hlo
      exfalso
      cases hao : truthy (lookupA rec "accountId") <;>
        rw [hco, hlo, hao] at hcount <;> exact absurd hcount (by decide)

/-- Witness for the amended claim C2: a record carrying customerId c1 and
accountId a1, both parents present, resolves to the customerUnit identity
and touches no other identity. -/
theorem c2_priority_determinism_witness :
    (2 ≤ (cond (truthy (lookupA [("unitId", "u1"), ("customerId", "c1"),
        ("accountId", "a1")] "customerId")) 1 0) +
      (cond (truthy (lookupA [("unitId", "u1"), ("customerId", "c1"),
        ("accountId", "a1")] "locationId")) 1 0) +
      (cond (truthy (lookupA [("unitId", "u1"), ("customerId", "c1"),
        ("accountId", "a1")] "accountId")) 1 0)) ∧
    ∃ t2, process_insert
        ⟨[(("c1", "customer"), [("PK", "c1"), ("SK", "customer")]),
          (("a1", "account"), [("PK", "a1"), ("SK", "account")])], []⟩
        [("unitId", "u1"), ("customerId", "c1"), ("accountId", "a1")] "T1" =
        .ok t2 ∧
      getItem t2.db
        (specWinnerParentId [("unitId", "u1"), ("customerId", "c1"),
          ("accountId", "a1")] ++ "|" ++ "u1")
        (specWinnerSortKey [("unitId", "u1"), ("customerId", "c1"),
          ("accountId", "a1")]) =
        some (setA (mergeA
          [("PK", specWinnerParentId [("unitId", "u1"), ("customerId", "c1"),
             ("accountId", "a1")] ++ "|" ++ "u1"),
           ("SK", specWinnerSortKey [("unitId", "u1"), ("customerId", "c1"),
             ("accountId", "a1")])]
          [("unitId", "u1"), ("customerId", "c1"), ("accountId", "a1")])
          "createdAt" "T1") ∧
      ∀ pk2 sk2,
        ¬ (pk2 = specWinnerParentId [("unitId", "u1"), ("customerId", "c1"),
             ("accountId", "a1")] ++ "|" ++ "u1" ∧
           sk2 = specWinnerSortKey [("unitId", "u1"), ("customerId", "c1"),
             ("accountId", "a1")]) →
        getItem t2.db pk2 sk2 =
          getItem [(("c1", "customer"), [("PK", "c1"), ("SK", "customer")]),
            (("a1", "account"), [("PK", "a1"), ("SK", "account")])] pk2 sk2 :=
  ⟨by decide,
   c2_priority_determinism_bar_free
     [(("c1", "customer"), [("PK", "c1"), ("SK", "customer")]),
      (("a1", "account"), [("PK", "a1"), ("SK", "account")])]
     [("unitId", "u1"), ("customerId", "c1"), ("accountId", "a1")]
     "T1" "u1" (by decide) (by decide) (by decide) (by decide) (by decide)
     (by decide) (by decide) (by decide) (by decide) (by decide) (by decide)⟩

/-- Claim C4 as frozen is false on the code: with customerId x|y, the
create loop checks parent existence at the bar-prefix x of the composite
key x|y|u1 rather than at (x|y, customer); a stored customer x makes the
gate pass and the customerUnit projection is created even though no parent
record exists at (x|y, customer). -/
theorem c4_gating_claim_counterexample :
    getItem c4Store.db "x|y" "customer" = none ∧
    lookupA c4Event "customerId" = some "x|y" ∧
    lookupA c4Event "unitId" = some "u1" ∧
    process_insert c4Store c4Event "T1" = .ok c4After ∧
    (getItem c4After.db "x|y|u1" "customerUnit").isSome = true := by
  refine ⟨by decide, by decide, by decide, rfl, by decide⟩

/-- Claim C4 amended: for customer and location parent types whose id
contains no bar separator (the amendment forced by the counterexample:
the code extracts the parent id as the bar-prefix of the composite key),
the create is performed only if the parent entity exists at
(parentId, parentType-name) — when that lookup is absent, the derived
customer or location identity is left untouched; for the account parent
type no parent-existence check is performed, so a Created event carrying
only an accountId and a unitId always leaves an accountUnit record in the
store, even when no account entity exists. -/
theorem c4_create_gating_and_account_fallback
    (db : DB) (rec : AttrMap) (ts : String)
    (hPK : lookupA rec "PK" = none) (hSK : lookupA rec "SK" = none) :
    (∀ u c, lookupA rec "unitId" = some u → lookupA rec "customerId" = some c →
       (∀ ch ∈ c.data, ch ≠ '|') →
       getItem db c "customer" = none →
       ∀ t2, process_insert ⟨db, []⟩ rec ts = .ok t2 →
         getItem t2.db (c ++ "|" ++ u) "customerUnit" =
           getItem db (c ++ "|" ++ u) "customerUnit") ∧
    (∀ u l, lookupA rec "unitId" = some u → lookupA rec "locationId" = some l →
       (∀ ch ∈ l.data, ch ≠ '|') →
       getItem db l "location" = none →
       ∀ t2, process_insert ⟨db, []⟩ rec ts = .ok t2 →
         getItem t2.db (l ++ "|" ++ u) "locationUnit" =
           getItem db (l ++ "|" ++ u) "locationUnit") ∧
    (∀ u a, lookupA rec "unitId" = some u → u ≠ "" →
       lookupA rec "accountId" = some a → a ≠ "" →
       truthy (lookupA rec "customerId") = false →
       truthy (lookupA rec "locationId") = false →
       ∃ t2, process_insert ⟨db, []⟩ rec ts = .ok t2 ∧
         (getItem t2.db (a ++ "|" ++ u) "accountUnit").isSome = true) := by
  refine ⟨?_, ?_, ?_⟩
  · intro u c hu hcEq hcbarC habsent t2 hrun
    obtain ⟨db2, he, hcase⟩ := process_insert_go_shape rec ts keyTypes db
    have ht2 : t2 = ⟨db2, []⟩ := by
      have h0 := he.symm.trans hrun
      exact (by simpa using h0 : (⟨db2, []⟩ : Table) = t2).symm
    subst ht2
    dsimp only
    rcases hcase with hsame | ⟨kt, pksk, hmem, hb, hgate, item, pkE, skE,
      hitem, hpkE, hskE, hfreshE, hput⟩
    · rw [hsame]
    · subst hitem; subst hpkE; subst hskE; subst hput
      obtain ⟨hKpk, hKsk⟩ := item_key_lookups rec pksk.1 pksk.2 ts hPK hSK
      rw [hKpk, hKsk, Option.getD_some, Option.getD_some, getItem_putAt,
        if_neg ?hne]
      case hne =>
        rintro ⟨hk1, hk2⟩
        rcases build_pk_sk_sk_cases rec kt pksk hb with ⟨hkt, hsk⟩ | ⟨hkt, hsk⟩ |
          ⟨hkt, hsk⟩
        · subst hkt
          rcases hgate with hg | hg
          · rw [← hk1, parent_id_of_concat c u hcbarC, habsent] at hg
            simp at hg
          · exact absurd hg (by decide)
        · rw [hsk] at hk2
          exact absurd hk2 (by decide)
        · rw [hsk] at hk2
          exact absurd hk2 (by decide)
  · intro u l hu hlEq hlbarL habsent t2 hrun
    obtain ⟨db2, he, hcase⟩ := process_insert_go_shape rec ts keyTypes db
    have ht2 : t2 = ⟨db2, []⟩ := by
      have h0 := he.symm.trans hrun
      exact (by simpa using h0 : (⟨db2, []⟩ : Table) = t2).symm
    subst ht2
    dsimp only
    rcases hcase with hsame | ⟨kt, pksk, hmem, hb, hgate, item, pkE, skE,
      hitem, hpkE, hskE, hfreshE, hput⟩
    · rw [hsame]
    · subst hitem; subst hpkE; subst hskE; subst hput
      obtain ⟨hKpk, hKsk⟩ := item_key_lookups rec pksk.1 pksk.2 ts hPK hSK
      rw [hKpk, hKsk, Option.getD_some, Option.getD_some, getItem_putAt,
        if_neg ?hne]
      case hne =>
        rintro ⟨hk1, hk2⟩
        rcases build_pk_sk_sk_cases rec kt pksk hb with ⟨hkt, hsk⟩ | ⟨hkt, hsk⟩ |
          ⟨hkt, hsk⟩
        · rw [hsk] at hk2
          exact absurd hk2 (by decide)
        · subst hkt
          rcases hgate with hg | hg
          · rw [← hk1, parent_id_of_concat l u hlbarL, habsent] at hg
            simp at hg
          · exact absurd hg (by decide)
        · rw [hsk] at hk2
          exact absurd hk2 (by decide)
  · intro u a hu hune haEq hane hcoF hloF
    have hb := build_pk_sk_account_some rec u a hu hune haEq hane
    have hskipC := process_insert_go_skip_nobuild ⟨db, []⟩ rec ts "customer"
      ["location", "account"] (build_pk_sk_customer_none rec hcoF)
    have hskipL := process_insert_go_skip_nobuild ⟨db, []⟩ rec ts "location"
      ["account"] (build_pk_sk_location_none rec hloF)
    have hgate : ((getItem db (parent_id_of (a ++ "|" ++ u)) "account").isSome
        || ("account" == "account")) = true := by
      simp
    cases hkey : getItem db (a ++ "|" ++ u) "accountUnit" with
    | none =>
      have hrun : process_insert ⟨db, []⟩ rec ts =
          .ok ⟨putAt db (a ++ "|" ++ u) "accountUnit"
            (setA (mergeA [("PK", a ++ "|" ++ u), ("SK", "accountUnit")] rec)
              "createdAt" ts), []⟩ := by
        calc process_insert ⟨db, []⟩ rec ts
            = process_insert_go ⟨db, []⟩ rec ts
                ["customer", "location", "account"] := rfl
          _ = process_insert_go ⟨db, []⟩ rec ts ["location", "account"] := hskipC
          _ = process_insert_go ⟨db, []⟩ rec ts ["account"] := hskipL
          _ = _ := insert_wins_head db rec ts "account" [] (a ++ "|" ++ u)
              "accountUnit" hb hgate hPK hSK hkey
      refine ⟨_, hrun, ?_⟩
      dsimp only
      rw [getItem_putAt, if_pos ⟨rfl, rfl⟩]
      rfl
    | some old =>
      have hcond := put_item_cond_taken db rec (a ++ "|" ++ u) "accountUnit"
        ts old hPK hSK hkey
      have hskipA := process_insert_go_skip_exists ⟨db, []⟩ rec ts "account" []
        (a ++ "|" ++ u, "accountUnit") hb hgate hcond
      have hrun : process_insert ⟨db, []⟩ rec ts = .ok ⟨db, []⟩ := by
        calc process_insert ⟨db, []⟩ rec ts
            = process_insert_go ⟨db, []⟩ rec ts
                ["customer", "location", "account"] := rfl
          _ = process_insert_go ⟨db, []⟩ rec ts ["location", "account"] := hskipC
          _ = process_insert_go ⟨db, []⟩ rec ts ["account"] := hskipL
          _ = process_insert_go ⟨db, []⟩ rec ts [] := hskipA
          _ = .ok ⟨db, []⟩ := rfl
      refine ⟨_, hrun, ?_⟩
      dsimp only
      rw [hkey]
      rfl

/-- Witness for the amended claim C4 on the empty store: in particular the
account-fallback part applies to a record carrying only accountId and
unitId, with no account entity anywhere. -/
theorem c4_create_gating_witness :
    (lookupA [("unitId", "u1"), ("accountId", "a1")] "PK" = none) ∧
    ((∀ u c, lookupA [("unitId", "u1"), ("accountId", "a1")] "unitId" = some u →
       lookupA [("unitId", "u1"), ("accountId", "a1")] "customerId" = some c →
       (∀ ch ∈ c.data, ch ≠ '|') →
       getItem [] c "customer" = none →
       ∀ t2, process_insert ⟨[], []⟩ [("unitId", "u1"), ("accountId", "a1")]
           "T1" = .ok t2 →
         getItem t2.db (c ++ "|" ++ u) "customerUnit" =
           getItem [] (c ++ "|" ++ u) "customerUnit") ∧
     (∀ u l, lookupA [("unitId", "u1"), ("accountId", "a1")] "unitId" = some u →
       lookupA [("unitId", "u1"), ("accountId", "a1")] "locationId" = some l →
       (∀ ch ∈ l.data, ch ≠ '|') →
       getItem [] l "location" = none →
       ∀ t2, process_insert ⟨[], []⟩ [("unitId", "u1"), ("accountId", "a1")]
           "T1" = .ok t2 →
         getItem t2.db (l ++ "|" ++ u) "locationUnit" =
           getItem [] (l ++ "|" ++ u) "locationUnit") ∧
     (∀ u a, lookupA [("unitId", "u1"), ("accountId", "a1")] "unitId" = some u →
       u ≠ "" →
       lookupA [("unitId", "u1"), ("accountId", "a1")] "accountId" = some a →
       a ≠ "" →
       truthy (lookupA [("unitId", "u1"), ("accountId", "a1")] "customerId") = false →
       truthy (lookupA [("unitId", "u1"), ("accountId", "a1")] "locationId") = false →
       ∃ t2, process_insert ⟨[], []⟩ [("unitId", "u1"), ("accountId", "a1")]
           "T1" = .ok t2 ∧
         (getItem t2.db (a ++ "|" ++ u) "accountUnit").isSome = true)) :=
  ⟨by decide,
   c4_create_gating_and_account_fallback [] [("unitId", "u1"), ("accountId", "a1")]
     "T1" (by decide) (by decide)⟩

/-- Witness for claim C6: soft-deleting a concrete stored projection
record. -/
theorem c6_soft_delete_frame_witness :
    ∃ t2, process_delete
        ⟨[(("c1|u1", "customerUnit"),
           [("PK", "c1|u1"), ("SK", "customerUnit"), ("unitId", "u1"),
            ("customerId", "c1"), ("model", "m1"), ("createdAt", "T0")])], []⟩
        [("unitId", "u1"), ("customerId", "c1")] "T3" = .ok t2 ∧
      (∀ pk sk,
        (getItem [(("c1|u1", "customerUnit"),
           [("PK", "c1|u1"), ("SK", "customerUnit"), ("unitId", "u1"),
            ("customerId", "c1"), ("model", "m1"), ("createdAt", "T0")])] pk sk).isSome = true →
        (getItem t2.db pk sk).isSome = true) ∧
      (∀ pk sk,
        getItem t2.db pk sk =
          getItem [(("c1|u1", "customerUnit"),
            [("PK", "c1|u1"), ("SK", "customerUnit"), ("unitId", "u1"),
             ("customerId", "c1"), ("model", "m1"), ("createdAt", "T0")])] pk sk ∨
        ∃ old,
          getItem [(("c1|u1", "customerUnit"),
            [("PK", "c1|u1"), ("SK", "customerUnit"), ("unitId", "u1"),
             ("customerId", "c1"), ("model", "m1"), ("createdAt", "T0")])] pk sk = some old ∧
          getItem t2.db pk sk = some (mergeA old [("deletedAt", "T3")]) ∧
          lookupA (mergeA old [("deletedAt", "T3")]) "deletedAt" = some "T3" ∧
          (∀ f, f ≠ "deletedAt" →
            lookupA (mergeA old [("deletedAt", "T3")]) f = lookupA old f)) :=
  c6_soft_delete_frame
    [(("c1|u1", "customerUnit"),
      [("PK", "c1|u1"), ("SK", "customerUnit"), ("unitId", "u1"),
       ("customerId", "c1"), ("model", "m1"), ("createdAt", "T0")])]
    [("unitId", "u1"), ("customerId", "c1")] "T3"
